import Mathlib

/-
Shallow embedding of the Directus websocket gateway
(api/src/websocket: handlers/subscribe.ts, controllers/base.ts,
authenticate.ts, and app/src/websocket.ts on the client side).

Clients and subscriptions are identified by numeric ids standing for
JavaScript object identity.  Records keyed by strings are modelled as
association lists in key-insertion order, matching JavaScript object
iteration; Set iteration order is modelled by list order.
-/

namespace DirectusWS

/-- JavaScript truthiness of an optional string value (null, undefined and
the empty string are falsy). -/
def strTruthy : Option String → Bool
  | none => false
  | some s => s ≠ ""

/-- Accountability principal attached to a connection (user id and admin
flag are the only fields the websocket code inspects). -/
structure Accountability where
  user : Option String
  admin : Bool
deriving DecidableEq, Repr

/-- A websocket client: object identity plus its accountability
(`client.accountability` may be null). -/
structure Client where
  id : Nat
  acc : Option Accountability
deriving DecidableEq, Repr

/-- The value of the optional chain `client.accountability?.admin`
used as a boolean. -/
def Client.admin (c : Client) : Bool :=
  match c.acc with
  | some a => a.admin
  | none => false

/-- The truthy user id of `client.accountability?.user`, as used by
`userOnline`, `userOffline` and `addFocus` (falsy values collapse to
`none`). -/
def userIdOf (c : Client) : Option String :=
  match c.acc with
  | none => none
  | some a =>
    match a.user with
    | none => none
    | some u => if u = "" then none else some u

/-- A registered subscription (SubscribeHandler).  `sid` is a tag standing
for JavaScript object identity of the subscription, `client` is the id of
the owning client.  `item`/`query`/`uid` model field presence
(`x in subscription`) by `Option`. -/
structure Subscription where
  sid : Nat
  client : Nat
  collection : String
  item : Option String
  query : Option String
  status : Bool
  uid : Option String
deriving DecidableEq, Repr

/-- The subscription registry `Record<string, Set<Subscription>>`:
association list keyed by collection, buckets in insertion order. -/
abbrev Registry := List (String × List Subscription)

/-- All subscriptions in `Object.values` order (bucket key order, then
insertion order inside each bucket). -/
def allSubs (reg : Registry) : List Subscription :=
  (reg.map Prod.snd).flatten

/-- `SubscribeHandler.subscribe`, adding to the bucket keyed by the given
collection: JavaScript records have unique keys, so only the first
matching bucket is extended; a missing bucket is created at the end. -/
def addToBucket : Registry → String → Subscription → Registry
  | [], c, s => [(c, [s])]
  | kv :: rest, c, s =>
    if kv.1 = c then (kv.1, kv.2 ++ [s]) :: rest
    else kv :: addToBucket rest c s

/-- `SubscribeHandler.subscribe(subscription)`. -/
def subscribeReg (reg : Registry) (s : Subscription) : Registry :=
  addToBucket reg s.collection s

/-- `this.subscriptions[collection]?.delete(subscription)`: remove the
object tagged `sid` from the bucket keyed `c`. -/
def deleteFromBucket : Registry → String → Nat → Registry
  | [], _, _ => []
  | kv :: rest, c, sid =>
    if kv.1 = c then (kv.1, kv.2.filter (fun s => s.sid ≠ sid)) :: rest
    else kv :: deleteFromBucket rest c sid

/-- `SubscribeHandler.getSubscription(uid)`: the first subscription over
all buckets whose `uid` equals the given one, regardless of which client
owns it. -/
def getSubscription (reg : Registry) (u : String) : Option Subscription :=
  (allSubs reg).find? (fun s => s.uid == some u)

/-- The registry after the uid-less `unsubscribe` path: every bucket loses
the subscriptions owned by the given client. -/
def removeAllOfClient (reg : Registry) (cid : Nat) : Registry :=
  reg.map (fun kv => (kv.1, kv.2.filter (fun s => !(s.client == cid))))

/-- The collections on which the uid-less `unsubscribe` path fires a
synthetic focus dispatch (one per removed subscription). -/
def removedCollections (reg : Registry) (cid : Nat) : List String :=
  (reg.map (fun kv => (kv.2.filter (fun s => s.client == cid)).map (fun _ => kv.1))).flatten

/-- `SubscribeHandler.unsubscribe(client, uid?)`.  Returns the new
registry together with the collections receiving a focus dispatch.
With a uid, the globally first subscription carrying that uid is removed
only when it belongs to the calling client; without a uid, all
subscriptions of the client are removed. -/
def unsubscribe (reg : Registry) (cid : Nat) (uid : Option String) :
    Registry × List String :=
  match uid with
  | some u =>
    match getSubscription reg u with
    | some s =>
      if s.client = cid then (deleteFromBucket reg s.collection s.sid, [s.collection])
      else (reg, [])
    | none => (reg, [])
  | none => (removeAllOfClient reg cid, removedCollections reg cid)

/-- A frame pushed to one client over the socket.  `ftype` is the wire
`type` field; `event` is the `event` field of subscription frames;
`errCode` is the `error.code` of error frames. -/
structure Frame where
  target : Nat
  ftype : String
  event : Option String
  uid : Option String
  errCode : Option String
deriving DecidableEq, Repr

/-- `fmtMessage` applied to a subscription payload: a frame of type
`subscription` carrying the event name and the subscription uid. -/
def subscriptionFrame (target : Nat) (event : String) (uid : Option String) : Frame :=
  ⟨target, "subscription", some event, uid, none⟩

/-- Modelled from the spec: `handleWebsocketException` (exceptions.ts is
not among the sources) maps an exception raised with origin `subscribe`
to the error envelope `type, status, error.code, error.message, uid?`
and sends it to the client. -/
def subscribeErrorFrame (target : Nat) (code : String) (uid : Option String) : Frame :=
  ⟨target, "subscribe", none, uid, some code⟩

/-- External collaborators of the handler: schema exposure, query
sanitisation and the two `ItemsService` reads (the read takes the
subscription and the event name and either returns a payload or
throws an error code). -/
structure Env where
  hasCollection : String → Bool
  sanitize : String → String
  readSingle : Subscription → String → Except String Unit
  readMulti : Subscription → String → Except String Unit

/-- Whether an `Except` result is a success. -/
def readOk : Except String Unit → Bool
  | .ok _ => true
  | .error _ => false

/-- The filter applied by `SubscribeHandler.dispatch` before any read:
focus events are skipped for subscriptions without `status`; status
events are skipped when the subscription has an `item` and is not a
`directus_users` subscription with `status`. -/
def dispatchSkip (action : String) (s : Subscription) : Bool :=
  (action == "focus" && !s.status) ||
    (action == "status" && s.item.isSome &&
      !((s.collection == "directus_users") && s.status))

/-- Outcome of `dispatch` for one subscription of the bucket. -/
inductive DOutcome where
  | skipped
  | sent (f : Frame)
  | errored (f : Frame)
deriving DecidableEq, Repr

/-- The body of the `dispatch` loop for one subscription: skip check,
then the re-read under the refreshed accountability (single payload when
`item` is present, multi payload otherwise); a successful read sends a
subscription frame with the event set to the action, a throw is routed
to `handleWebsocketException`. -/
def dispatchSub (env : Env) (action : String) (s : Subscription) : DOutcome :=
  if dispatchSkip action s then .skipped
  else
    match (if s.item.isSome then env.readSingle s action else env.readMulti s action) with
    | .ok _ => .sent (subscriptionFrame s.client action s.uid)
    | .error code => .errored (subscribeErrorFrame s.client code none)

/-- The bucket of a collection (`this.subscriptions[collection] ?? new Set()`). -/
def bucketOf (reg : Registry) (c : String) : List Subscription :=
  (((reg.find? (fun kv => kv.1 == c)).map Prod.snd).getD [])

/-- `SubscribeHandler.dispatch(collection, data)` over the whole bucket. -/
def dispatch (env : Env) (reg : Registry) (c : String) (action : String) : List DOutcome :=
  (bucketOf reg c).map (dispatchSub env action)

/-- A focus record of `userFocus` (the spread of the subscription keeps
only the fields later read: user, collection, item). -/
structure Focus where
  user : String
  collection : String
  item : Option String
deriving DecidableEq, Repr

/-- Last-writer-wins update of the `userFocus` record keyed by user id. -/
def setAssoc (m : List (String × Focus)) (k : String) (v : Focus) :
    List (String × Focus) :=
  if m.any (fun kv => kv.1 == k) then
    m.map (fun kv => if kv.1 == k then (k, v) else kv)
  else m ++ [(k, v)]

/-- The mutable state of `SubscribeHandler` (`nextSid` allocates the
identity tags of new subscription objects). -/
structure HState where
  registry : Registry
  onlineStatus : List String
  userFocus : List (String × Focus)
  nextSid : Nat

/-- An incoming SUBSCRIBE message; `item`, `query` and `uid` model field
presence, `status` is the truthiness of `message.status`. -/
structure SubscribeMessage where
  collection : String
  item : Option String
  query : Option String
  status : Bool
  uid : Option String
deriving DecidableEq, Repr

/-- The candidate subscription built by `onMessage` for a SUBSCRIBE. -/
def mkSub (env : Env) (st : HState) (c : Client) (m : SubscribeMessage) :
    Subscription :=
  ⟨st.nextSid, c.id, m.collection, m.item, m.query.map env.sanitize, m.status, m.uid⟩

/-- The first read executed by `onMessage` for a SUBSCRIBE: `readOne`
when `item` is present, otherwise `readByQuery`, both with the default
event `init`. -/
def initRead (env : Env) (st : HState) (c : Client) (m : SubscribeMessage) :
    Except String Unit :=
  if (mkSub env st c m).item.isSome then env.readSingle (mkSub env st c m) "init"
  else env.readMulti (mkSub env st c m) "init"

/-- `addFocus(client, subscription)` as called on the single-item path of
a SUBSCRIBE: a no-op when the client has no truthy user id, otherwise a
last-writer-wins focus record plus one focus dispatch on the collection. -/
def addFocusOnSubscribe (uf : List (String × Focus)) (c : Client) (sub : Subscription) :
    List (String × Focus) × List (String × String) :=
  if sub.item.isSome then
    match userIdOf c with
    | some u => (setAssoc uf u ⟨u, sub.collection, sub.item⟩, [(sub.collection, "focus")])
    | none => (uf, [])
  else (uf, [])

/-- Result of handling one SUBSCRIBE message: the new handler state, the
frames sent directly to clients by `onMessage` (`client.send`), the
`dispatch` invocations it makes as pairs (collection, action), and the
subscription passed to `subscribe` when registration happened. -/
structure SubResult where
  state : HState
  frames : List Frame
  dispatches : List (String × String)
  registered : Option Subscription

/-- The SUBSCRIBE branch of `SubscribeHandler.onMessage`: collection
check, candidate construction, replace-step `unsubscribe` with the
candidate uid, first read, focus recording on the single-item path,
registration and focus dispatch only when the read succeeded, and the
init frame unless the subscription is a `directus_users` status
subscription with an item. -/
def onSubscribe (env : Env) (st : HState) (c : Client) (m : SubscribeMessage) :
    SubResult :=
  if !c.admin && !env.hasCollection m.collection then
    ⟨st, [subscribeErrorFrame c.id "INVALID_COLLECTION" m.uid], [], none⟩
  else
    let sub := mkSub env st c m
    let ru := unsubscribe st.registry c.id m.uid
    let d1 := ru.2.map (fun col => (col, "focus"))
    match initRead env st c m with
    | .error code =>
      ⟨⟨ru.1, st.onlineStatus, st.userFocus, st.nextSid⟩,
        [subscribeErrorFrame c.id code none], d1, none⟩
    | .ok _ =>
      let fu := addFocusOnSubscribe st.userFocus c sub
      let initFrames :=
        if sub.status && sub.item.isSome && (sub.collection == "directus_users") then []
        else [subscriptionFrame c.id "init" sub.uid]
      ⟨⟨subscribeReg ru.1 sub, st.onlineStatus, fu.1, st.nextSid + 1⟩,
        initFrames, d1 ++ fu.2 ++ [(sub.collection, "focus")], some sub⟩

/-- Count of frames with event `init` addressed to one client. -/
def initFrameCount (fs : List Frame) (cid : Nat) : Nat :=
  (fs.filter (fun f => f.target == cid && f.event == some "init")).length

/-- Count of `subscribe` error frames addressed to one client. -/
def errorFrameCount (fs : List Frame) (cid : Nat) : Nat :=
  (fs.filter (fun f => f.target == cid && f.ftype == "subscribe" && f.errCode.isSome)).length

/-- Well-formedness of the handler state: bucket keys are unique (they
come from a JavaScript record), every subscription sits in the bucket of
its own collection, and allocated identity tags are below `nextSid`. -/
def WFState (st : HState) : Prop :=
  (st.registry.map Prod.fst).Nodup ∧
    (∀ kv ∈ st.registry, ∀ s ∈ kv.2, s.collection = kv.1) ∧
    (∀ s ∈ allSubs st.registry, s.sid < st.nextSid)

instance (st : HState) : Decidable (WFState st) := by
  unfold WFState; infer_instance

/-- The lifecycle events of the event bus that the presence tracker
listens to (each carries the client of the connection). -/
inductive WsEvent where
  | connect (c : Client)
  | close (c : Client)
  | wsError (c : Client)
  | authSuccess (c : Client)
  | authFailure (c : Client)
deriving DecidableEq, Repr

/-- The client carried by a lifecycle event. -/
def WsEvent.client : WsEvent → Client
  | .connect c => c
  | .close c => c
  | .wsError c => c
  | .authSuccess c => c
  | .authFailure c => c

/-- Events on which `SubscribeHandler.bindWebsocket` calls `userOnline`
(the others call `userOffline`). -/
def isOnlineEvt : WsEvent → Bool
  | .connect _ => true
  | .authSuccess _ => true
  | _ => false

/-- `Set.add` of the presence set. -/
def addUser (l : List String) (u : String) : List String :=
  if u ∈ l then l else l ++ [u]

/-- `Set.delete` of the presence set. -/
def delUser (l : List String) (u : String) : List String :=
  l.filter (fun v => v ≠ u)

/-- One lifecycle event applied to `onlineStatus`: `userOnline` adds the
truthy user id, `userOffline` deletes it unconditionally; both are no-ops
for clients without a truthy user id. -/
def stepOnline (l : List String) (e : WsEvent) : List String :=
  match userIdOf e.client with
  | none => l
  | some u => if isOnlineEvt e then addUser l u else delUser l u

/-- The presence set after a trace of lifecycle events from startup. -/
def runOnline (es : List WsEvent) : List String :=
  es.foldl stepOnline []

/-- Whether a lifecycle event touches the presence entry of user `u`. -/
def touches (u : String) (e : WsEvent) : Bool :=
  userIdOf e.client == some u

/-- Whether the last presence event of user `u` in the trace is an
online event. -/
def lastOnline (u : String) (es : List WsEvent) : Bool :=
  match (es.filter (touches u)).getLast? with
  | some e => isOnlineEvt e
  | none => false

/-- The live clients of the connection manager after a trace: created on
connect, dropped on close and on error. -/
def stepLive (l : List Client) (e : WsEvent) : List Client :=
  match e with
  | .connect c => if l.any (fun x => x.id == c.id) then l else l ++ [c]
  | .close c => l.filter (fun x => !(x.id == c.id))
  | .wsError c => l.filter (fun x => !(x.id == c.id))
  | .authSuccess _ => l
  | .authFailure _ => l

/-- The live client set after a trace of lifecycle events. -/
def runLive (es : List WsEvent) : List Client :=
  es.foldl stepLive []

/-- The pending token-expiry timer of a `SocketController`: the field
`private authTimer` is a single slot on the controller, shared by all of
its clients; the record keeps the client the scheduled callback targets
and the expiry it was computed from. -/
structure TimerRec where
  client : Nat
  expiresAt : Int
deriving DecidableEq, Repr

/-- `SocketController.setTokenExpireTimer(client)`: the pending timer of
the controller, whichever client owns it, is cleared first; when the
expiry of the given client is falsy no new timer is installed, otherwise
the single slot now holds a timer for that client. -/
def setTokenExpireTimer (pending : Option TimerRec) (cid : Nat)
    (expiresAt : Option Int) : Option TimerRec :=
  match pending, expiresAt with
  | _, none => none
  | _, some t => if t ≠ 0 then some ⟨cid, t⟩ else none

/-- Outcome of a strict-mode upgrade request. -/
inductive UpgradeOutcome where
  | rejected401
  | connected (acc : Accountability) (expiresAt : Option Int)
deriving DecidableEq, Repr

/-- `SocketController.handleStrictUpgrade`: the try block resolving the
access token either yields an accountability and an expiry or throws
(`none`), in which case both are nulled; a missing accountability or a
falsy user writes `HTTP/1.1 401 Unauthorized` and destroys the socket,
otherwise the upgrade completes and a connection event carrying the
resolved state is emitted. -/
def handleStrictUpgrade (res : Option (Accountability × Option Int)) :
    UpgradeOutcome :=
  match res with
  | none => .rejected401
  | some (a, e) => if strTruthy a.user then .connected a e else .rejected401

/-- The lifecycle events an upgrade outcome feeds to the event bus: a
rejected upgrade emits nothing, a completed one leads to `createClient`
and a `websocket.connect` for the new client. -/
def upgradeEvents (cid : Nat) : UpgradeOutcome → List WsEvent
  | .rejected401 => []
  | .connected a _ => [WsEvent.connect ⟨cid, some a⟩]

/-- A settle attempt on the promise returned by the client-side `send`. -/
inductive Settle where
  | resolveOk
  | resolveData
  | rejected
deriving DecidableEq, Repr

/-- The body of the `setTimeout` callback scheduled by `send` for the
timeout: it settles nothing, because the reject call in it is commented
out in app/src/websocket.ts. -/
def sendTimerSettles : List Settle := []

/-- The default value of the `timeout` parameter of `send`. -/
def sendDefaultTimeoutMs : Nat := 5000

/-- The settle attempts on the promise of one `send` call in
chronological order: the executor resolves `{status: ok}` synchronously,
a later matching reply (when one arrives) resolves again through the
registered callback, and the timer callback contributes
`sendTimerSettles`. -/
def sendSettleAttempts (replyArrives : Bool) (_timeoutMs : Nat) : List Settle :=
  [Settle.resolveOk] ++ (if replyArrives then [Settle.resolveData] else [])
    ++ sendTimerSettles

/-- A promise settles with its first settle attempt. -/
def promiseOutcome (attempts : List Settle) : Option Settle :=
  attempts.head?

/-- The client-side uid generator `function* { let i = 0; while(true) yield i++ }`
as a state machine: `uidNext` returns the yielded uid and the next state,
the initial state is 0. -/
def uidNext (state : Nat) : Nat × Nat :=
  (state, state + 1)

/-- The key the inbound dispatcher of connectWebSocket looks up in
`onMessageCallbacks`: the parsed numeric uid guarded by the JavaScript
truthiness check `if (uid)`, so a frame with uid 0 (or without uid)
invokes no callback. -/
def invokedCallbackKey (uid : Option Nat) : Option Nat :=
  match uid with
  | none => none
  | some u => if u ≠ 0 then some u else none

/-- The value passed in the first (error-object) parameter position of
`authenticationError`: either a BaseException carrying code and message,
or a plain string that reached the slot by mistake. -/
inductive ErrArg where
  | exc (code : String) (msg : String)
  | str (s : String)
deriving DecidableEq, Repr

/-- Property access `error.code`: undefined on a string value. -/
def ErrArg.codeOf : ErrArg → Option String
  | .exc c _ => some c
  | .str _ => none

/-- Property access `error.message`: undefined on a string value. -/
def ErrArg.msgOf : ErrArg → Option String
  | .exc _ m => some m
  | .str _ => none

/-- The `auth` error frame of `authenticationError` after JSON
serialisation: undefined members of `error` disappear, and the uid field
is spread in only when the uid argument is truthy. -/
structure AuthErrorFrame where
  ftype : String
  status : String
  errCode : Option String
  errMessage : Option String
  uid : Option String
deriving DecidableEq, Repr

/-- `authenticationError(error?, uid?)` of websocket/authenticate.ts: a
nullish error argument defaults to `AuthenticationFailedException`; any
other value, a misplaced string included, is kept and its code and
message properties are read off it. -/
def authenticationError (error : Option ErrArg) (uid : Option String) :
    AuthErrorFrame :=
  let e := match error with
    | none => ErrArg.exc "AUTHENTICATION_FAILED" "Authentication failed."
    | some e => e
  ⟨"auth", "error", e.codeOf, e.msgOf,
    match uid with
    | some u => if u ≠ "" then some u else none
    | none => none⟩

/-- The frame built by the inline AUTH failure branch of
`SocketController.createClient`: the message uid is passed as the first
argument of `authenticationError`, leaving the uid parameter undefined. -/
def inlineAuthFailureFrame (msgUid : Option String) : AuthErrorFrame :=
  authenticationError (msgUid.map ErrArg.str) none

/-- An environment where every collection exists and every read
succeeds. -/
def envOkAll : Env :=
  ⟨fun _ => true, id, fun _ _ => .ok (), fun _ _ => .ok ()⟩

/-- The handler state at startup. -/
def st0 : HState := ⟨[], [], [], 0⟩

/-- A first admin client. -/
def cA : Client := ⟨1, some ⟨some "ua", true⟩⟩

/-- A second admin client. -/
def cB : Client := ⟨2, some ⟨some "ub", true⟩⟩

/-- A plain multi-mode SUBSCRIBE on articles with uid `u`. -/
def mU : SubscribeMessage := ⟨"articles", none, none, false, some "u"⟩

/-- The handler state after client B and then twice client A subscribe
with the same uid `u` on the same collection. -/
def stBAA : HState :=
  (onSubscribe envOkAll
    (onSubscribe envOkAll
      (onSubscribe envOkAll st0 cB mU).state cA mU).state cA mU).state

@[simp]
theorem allSubs_nil : allSubs [] = [] := rfl

@[simp]
theorem allSubs_cons (kv : String × List Subscription) (reg : Registry) :
    allSubs (kv :: reg) = kv.2 ++ allSubs reg := by
  simp [allSubs]

theorem mem_allSubs {reg : Registry} {x : Subscription} :
    x ∈ allSubs reg ↔ ∃ kv ∈ reg, x ∈ kv.2 := by
  induction reg with
  | nil => simp
  | cons kv rest ih => simp [ih, List.mem_append, or_and_right, exists_or]

theorem getSubscription_eq (reg : Registry) (u : String) :
    getSubscription reg u = ((allSubs reg).filter (fun s => s.uid == some u)).head? := by
  simp [getSubscription, List.filter_head?]

theorem filter_allSubs_add_of_empty {p : Subscription → Bool} {reg : Registry}
    (c : String) (s : Subscription) (h : (allSubs reg).filter p = []) :
    (allSubs (addToBucket reg c s)).filter p = if p s then [s] else [] := by
  induction reg with
  | nil => cases hp : p s <;> simp [addToBucket, hp]
  | cons kv rest ih =>
    simp only [allSubs_cons, List.filter_append, List.append_eq_nil] at h
    by_cases hc : kv.1 = c
    · cases hp : p s <;>
        simp [addToBucket, hc, List.filter_append, List.filter_cons, h.1, h.2, hp]
    · simp [addToBucket, hc, List.filter_append, h.1, ih h.2]

theorem filter_allSubs_add_of_false {p : Subscription → Bool} {reg : Registry}
    (c : String) (s : Subscription) (h : p s = false) :
    (allSubs (addToBucket reg c s)).filter p = (allSubs reg).filter p := by
  induction reg with
  | nil => simp [addToBucket, h]
  | cons kv rest ih =>
    by_cases hc : kv.1 = c
    · simp [addToBucket, hc, List.filter_append, h]
    · simp [addToBucket, hc, List.filter_append, ih]

theorem mem_allSubs_add_self (reg : Registry) (c : String) (s : Subscription) :
    s ∈ allSubs (addToBucket reg c s) := by
  induction reg with
  | nil => simp [addToBucket]
  | cons kv rest ih =>
    by_cases hc : kv.1 = c
    · simp [addToBucket, hc]
    · simp only [addToBucket, if_neg hc, allSubs_cons, List.mem_append]
      exact Or.inr ih

theorem mem_allSubs_add {reg : Registry} {c : String} {s x : Subscription}
    (h : x ∈ allSubs (addToBucket reg c s)) : x ∈ allSubs reg ∨ x = s := by
  induction reg with
  | nil => simpa [addToBucket] using h
  | cons kv rest ih =>
    by_cases hc : kv.1 = c
    · simp only [addToBucket, if_pos hc, allSubs_cons, List.mem_append,
        List.mem_singleton] at h
      rcases h with (h | h) | h
      · exact Or.inl (by simp [List.mem_append, h])
      · exact Or.inr h
      · exact Or.inl (by simp [List.mem_append, h])
    · simp only [addToBucket, if_neg hc, allSubs_cons, List.mem_append] at h
      rcases h with h | h
      · exact Or.inl (by simp [List.mem_append, h])
      · rcases ih h with h | h
        · exact Or.inl (by simp [List.mem_append, h])
        · exact Or.inr h

theorem mem_allSubs_del {reg : Registry} {c : String} {sid : Nat} {x : Subscription}
    (h : x ∈ allSubs (deleteFromBucket reg c sid)) : x ∈ allSubs reg := by
  induction reg with
  | nil => simp [deleteFromBucket] at h
  | cons kv rest ih =>
    by_cases hc : kv.1 = c
    · simp only [deleteFromBucket, if_pos hc, allSubs_cons, List.mem_append] at h
      rcases h with h | h
      · exact by simp [List.mem_append, (List.mem_filter.mp h).1]
      · exact by simp [List.mem_append, h]
    · simp only [deleteFromBucket, if_neg hc, allSubs_cons, List.mem_append] at h
      rcases h with h | h
      · exact by simp [List.mem_append, h]
      · exact by simp [List.mem_append, ih h]

theorem allSubs_removeAll (reg : Registry) (cid : Nat) :
    allSubs (removeAllOfClient reg cid)
      = (allSubs reg).filter (fun s => !(s.client == cid)) := by
  induction reg with
  | nil => simp [removeAllOfClient]
  | cons kv rest ih =>
    simp [removeAllOfClient, List.filter_append] at ih ⊢
    exact ih

theorem keys_deleteFromBucket (reg : Registry) (c : String) (sid : Nat) :
    (deleteFromBucket reg c sid).map Prod.fst = reg.map Prod.fst := by
  induction reg with
  | nil => rfl
  | cons kv rest ih =>
    by_cases hc : kv.1 = c
    · simp [deleteFromBucket, hc]
    · simp [deleteFromBucket, hc, ih]

theorem keys_removeAll (reg : Registry) (cid : Nat) :
    (removeAllOfClient reg cid).map Prod.fst = reg.map Prod.fst := by
  simp [removeAllOfClient]

theorem mem_keys_add {reg : Registry} {c k : String} {s : Subscription}
    (h : k ∈ (addToBucket reg c s).map Prod.fst) :
    k ∈ reg.map Prod.fst ∨ k = c := by
  induction reg with
  | nil => simpa [addToBucket] using h
  | cons kv rest ih =>
    by_cases hc : kv.1 = c
    · simp only [addToBucket, if_pos hc, List.map_cons, List.mem_cons] at h
      rcases h with h | h
      · exact Or.inl (by simp [h])
      · exact Or.inl (by simp [h])
    · simp only [addToBucket, if_neg hc, List.map_cons, List.mem_cons] at h
      rcases h with h | h
      · exact Or.inl (by simp [h])
      · rcases ih h with h | h
        · exact Or.inl (by simp [h])
        · exact Or.inr h

theorem nodup_keys_add {reg : Registry} (c : String) (s : Subscription)
    (h : (reg.map Prod.fst).Nodup) :
    ((addToBucket reg c s).map Prod.fst).Nodup := by
  induction reg with
  | nil => simp [addToBucket]
  | cons kv rest ih =>
    rcases List.nodup_cons.mp h with ⟨hk, hrest⟩
    by_cases hc : kv.1 = c
    · simpa [addToBucket, hc] using h
    · have heq : addToBucket (kv :: rest) c s = kv :: addToBucket rest c s := by
        simp [addToBucket, hc]
      rw [heq, List.map_cons]
      refine List.nodup_cons.mpr ⟨?_, ih hrest⟩
      intro hmem
      rcases mem_keys_add hmem with hmem | hmem
      · exact hk hmem
      · exact hc hmem

theorem bucketsMatch_add {reg : Registry} {s : Subscription}
    (h : ∀ kv ∈ reg, ∀ x ∈ kv.2, x.collection = kv.1) :
    ∀ kv ∈ addToBucket reg s.collection s, ∀ x ∈ kv.2, x.collection = kv.1 := by
  induction reg with
  | nil =>
    intro kv hkv x hx
    simp only [addToBucket, List.mem_singleton] at hkv
    subst hkv
    simp only [List.mem_singleton] at hx
    subst hx
    rfl
  | cons kv₀ rest ih =>
    intro kv hkv x hx
    by_cases hc : kv₀.1 = s.collection
    · simp only [addToBucket, if_pos hc, List.mem_cons] at hkv
      rcases hkv with hkv | hkv
      · subst hkv
        simp only [List.mem_append, List.mem_singleton] at hx
        rcases hx with hx | hx
        · exact h kv₀ (by simp) x (by simpa using hx)
        · subst hx
          exact hc.symm
      · exact h kv (by simp [hkv]) x hx
    · simp only [addToBucket, if_neg hc, List.mem_cons] at hkv
      rcases hkv with hkv | hkv
      · subst hkv
        exact h kv (by simp) x hx
      · exact ih (fun kv h1 x h2 => h kv (by simp [h1]) x h2) kv hkv x hx

theorem bucketsMatch_del {reg : Registry} {c : String} {sid : Nat}
    (h : ∀ kv ∈ reg, ∀ x ∈ kv.2, x.collection = kv.1) :
    ∀ kv ∈ deleteFromBucket reg c sid, ∀ x ∈ kv.2, x.collection = kv.1 := by
  induction reg with
  | nil => simp [deleteFromBucket]
  | cons kv₀ rest ih =>
    intro kv hkv x hx
    by_cases hc : kv₀.1 = c
    · simp only [deleteFromBucket, if_pos hc, List.mem_cons] at hkv
      rcases hkv with hkv | hkv
      · subst hkv
        exact h kv₀ (by simp) x (List.mem_filter.mp hx).1
      · exact h kv (by simp [hkv]) x hx
    · simp only [deleteFromBucket, if_neg hc, List.mem_cons] at hkv
      rcases hkv with hkv | hkv
      · subst hkv
        exact h kv (by simp) x hx
      · exact ih (fun kv h1 x h2 => h kv (by simp [h1]) x h2) kv hkv x hx

theorem bucketsMatch_removeAll {reg : Registry} {cid : Nat}
    (h : ∀ kv ∈ reg, ∀ x ∈ kv.2, x.collection = kv.1) :
    ∀ kv ∈ removeAllOfClient reg cid, ∀ x ∈ kv.2, x.collection = kv.1 := by
  intro kv hkv x hx
  simp only [removeAllOfClient, List.mem_map] at hkv
  rcases hkv with ⟨kv₀, hkv₀, rfl⟩
  exact h kv₀ hkv₀ x (List.mem_filter.mp hx).1

theorem filter_allSubs_del_single {p : Subscription → Bool} {reg : Registry}
    {s₀ : Subscription}
    (hnd : (reg.map Prod.fst).Nodup)
    (hcm : ∀ kv ∈ reg, ∀ x ∈ kv.2, x.collection = kv.1)
    (hfil : (allSubs reg).filter p = [s₀]) :
    (allSubs (deleteFromBucket reg s₀.collection s₀.sid)).filter p = [] := by
  induction reg with
  | nil => simp at hfil
  | cons kv rest ih =>
    rw [List.map_cons, List.nodup_cons] at hnd
    simp only [allSubs_cons, List.filter_append] at hfil
    rcases hk : List.filter p kv.2 with _ | ⟨a, t⟩
    · rw [hk, List.nil_append] at hfil
      have hs₀mem : s₀ ∈ allSubs rest :=
        (List.mem_filter.mp (hfil ▸ List.mem_singleton_self s₀)).1
      rcases mem_allSubs.mp hs₀mem with ⟨kv', hkv', hs₀'⟩
      have hcol : s₀.collection = kv'.1 := hcm kv' (by simp [hkv']) s₀ hs₀'
      have hne : kv.1 ≠ s₀.collection := by
        intro he
        exact hnd.1 (by rw [← he] at hcol; exact hcol ▸ List.mem_map_of_mem _ hkv')
      simp only [deleteFromBucket, if_neg hne, allSubs_cons, List.filter_append, hk,
        List.nil_append]
      exact ih hnd.2 (fun kv h1 x h2 => hcm kv (by simp [h1]) x h2) hfil
    · rw [hk] at hfil
      have hsplit : a = s₀ ∧ t = [] ∧ List.filter p (allSubs rest) = [] := by
        have h0 := hfil
        rw [List.cons_append] at h0
        rcases List.cons_eq_cons.mp h0 with ⟨h1, h2⟩
        rcases List.append_eq_nil.mp h2 with ⟨h3, h4⟩
        exact ⟨h1, h3, h4⟩
      obtain ⟨rfl, ht, hrest⟩ := hsplit
      have hs₀kv : a ∈ kv.2 := by
        have : a ∈ List.filter p kv.2 := by rw [hk]; simp
        exact (List.mem_filter.mp this).1
      have hc : kv.1 = a.collection := (hcm kv (by simp) a hs₀kv).symm
      simp only [deleteFromBucket, if_pos hc, allSubs_cons, List.filter_append, hrest,
        List.append_nil]
      have hcomm : List.filter p (List.filter (fun s => s.sid ≠ a.sid) kv.2)
          = List.filter (fun s => decide (s.sid ≠ a.sid) && p s) kv.2 := by
        rw [List.filter_filter]
        exact List.filter_congr (fun x _ => Bool.and_comm _ _)
      rw [hcomm, ← List.filter_filter, hk, ht]
      simp

theorem mem_unsubscribe {reg : Registry} {cid : Nat} {uid : Option String}
    {x : Subscription} (h : x ∈ allSubs (unsubscribe reg cid uid).1) :
    x ∈ allSubs reg := by
  cases uid with
  | none =>
    simp only [unsubscribe, allSubs_removeAll] at h
    exact (List.mem_filter.mp h).1
  | some u =>
    rcases hg : getSubscription reg u with _ | s
    · simpa only [unsubscribe, hg] using h
    · simp only [unsubscribe, hg] at h
      by_cases hc : s.client = cid
      · rw [if_pos hc] at h
        exact mem_allSubs_del h
      · rw [if_neg hc] at h
        exact h

theorem registered_mem_subscribeReg (reg : Registry) (s : Subscription) :
    s ∈ allSubs (subscribeReg reg s) :=
  mem_allSubs_add_self reg s.collection s

theorem onSubscribe_err_eq (env : Env) (st : HState) (c : Client)
    (m : SubscribeMessage) (code : String)
    (hcol : (!c.admin && !env.hasCollection m.collection) = false)
    (hr : initRead env st c m = .error code) :
    onSubscribe env st c m =
      ⟨⟨(unsubscribe st.registry c.id m.uid).1, st.onlineStatus, st.userFocus, st.nextSid⟩,
        [subscribeErrorFrame c.id code none],
        (unsubscribe st.registry c.id m.uid).2.map (fun col => (col, "focus")), none⟩ := by
  simp only [onSubscribe, hcol, hr, Bool.false_eq_true, if_false]

theorem onSubscribe_ok_eq (env : Env) (st : HState) (c : Client)
    (m : SubscribeMessage) (u : Unit)
    (hcol : (!c.admin && !env.hasCollection m.collection) = false)
    (hr : initRead env st c m = .ok u) :
    onSubscribe env st c m =
      ⟨⟨subscribeReg (unsubscribe st.registry c.id m.uid).1 (mkSub env st c m),
          st.onlineStatus,
          (addFocusOnSubscribe st.userFocus c (mkSub env st c m)).1, st.nextSid + 1⟩,
        (if m.status && m.item.isSome && (m.collection == "directus_users") then []
          else [subscriptionFrame c.id "init" m.uid]),
        (unsubscribe st.registry c.id m.uid).2.map (fun col => (col, "focus"))
          ++ (addFocusOnSubscribe st.userFocus c (mkSub env st c m)).2
          ++ [(m.collection, "focus")],
        some (mkSub env st c m)⟩ := by
  simp only [onSubscribe, hcol, hr, Bool.false_eq_true, if_false]
  rfl

/-- C1 (amended): past the collection check, the subscription is
registered if and only if the first read succeeds; a failed read sends
one `subscribe` error frame and registers nothing; a successful
SUBSCRIBE sends exactly one frame with event `init` to the subscriber
unless the subscription is a `directus_users` status subscription with
an item, in which case no init frame is sent at all; and the SUBSCRIBE
handling only triggers `focus` dispatches, so no mutation-driven frame
can precede the init frame. -/
theorem onSubscribe_init_frame (env : Env) (st : HState) (c : Client)
    (m : SubscribeMessage) (hWF : WFState st)
    (hcol : (!c.admin && !env.hasCollection m.collection) = false) :
    ((onSubscribe env st c m).registered
        = if readOk (initRead env st c m) then some (mkSub env st c m) else none) ∧
    (mkSub env st c m ∈ allSubs (onSubscribe env st c m).state.registry
        ↔ readOk (initRead env st c m) = true) ∧
    (initFrameCount (onSubscribe env st c m).frames c.id
        = if readOk (initRead env st c m)
              && !(m.status && m.item.isSome && (m.collection == "directus_users"))
          then 1 else 0) ∧
    (readOk (initRead env st c m) = false →
        errorFrameCount (onSubscribe env st c m).frames c.id = 1) ∧
    (∀ d ∈ (onSubscribe env st c m).dispatches, d.2 = "focus") := by
  rcases hr : initRead env st c m with code | u
  · rw [onSubscribe_err_eq env st c m code hcol hr]
    simp only [readOk, Bool.false_eq_true, if_false, Bool.false_and]
    refine ⟨trivial, ?_, ?_, fun _ => ?_, ?_⟩
    · simp only [iff_false]
      intro hmem
      have hlt := hWF.2.2 _ (mem_unsubscribe hmem)
      simp [mkSub] at hlt
    · simp [initFrameCount, subscribeErrorFrame]
    · simp [errorFrameCount, subscribeErrorFrame]
    · intro d hd
      rcases List.mem_map.mp hd with ⟨col, _, rfl⟩
      rfl
  · rw [onSubscribe_ok_eq env st c m u hcol hr]
    simp only [readOk, if_true, Bool.true_and]
    refine ⟨trivial, ?_, ?_, by simp, ?_⟩
    · simp only [iff_true]
      exact registered_mem_subscribeReg _ _
    · by_cases hcorner :
        (m.status && m.item.isSome && (m.collection == "directus_users")) = true
      · simp [hcorner, initFrameCount]
      · have h2 : (m.status && m.item.isSome && (m.collection == "directus_users")) = false := by
          simp [hcorner]
        simp [h2, initFrameCount, subscriptionFrame]
    · intro d hd
      rcases List.mem_append.mp hd with hd | hd
      · rcases List.mem_append.mp hd with hd | hd
        · rcases List.mem_map.mp hd with ⟨col, _, rfl⟩
          rfl
        · unfold addFocusOnSubscribe at hd
          by_cases hi : (mkSub env st c m).item.isSome
          · rw [if_pos hi] at hd
            rcases hu : userIdOf c with _ | u₀ <;> rw [hu] at hd
            · simp at hd
            · simp only [List.mem_singleton] at hd
              subst hd
              rfl
          · rw [if_neg hi] at hd
            simp at hd
      · simp only [List.mem_singleton] at hd
        subst hd
        rfl

theorem onSubscribe_invalid_eq (env : Env) (st : HState) (c : Client)
    (m : SubscribeMessage)
    (hcol : (!c.admin && !env.hasCollection m.collection) = true) :
    onSubscribe env st c m
      = ⟨st, [subscribeErrorFrame c.id "INVALID_COLLECTION" m.uid], [], none⟩ := by
  simp only [onSubscribe, hcol, if_true]

theorem keys_unsubscribe (reg : Registry) (cid : Nat) (uid : Option String) :
    (unsubscribe reg cid uid).1.map Prod.fst = reg.map Prod.fst := by
  cases uid with
  | none => simp only [unsubscribe, keys_removeAll]
  | some u =>
    rcases hg : getSubscription reg u with _ | s
    · simp only [unsubscribe, hg]
    · simp only [unsubscribe, hg]
      by_cases hc : s.client = cid
      · rw [if_pos hc]
        exact keys_deleteFromBucket reg s.collection s.sid
      · rw [if_neg hc]

theorem bucketsMatch_unsubscribe {reg : Registry} {cid : Nat} {uid : Option String}
    (h : ∀ kv ∈ reg, ∀ x ∈ kv.2, x.collection = kv.1) :
    ∀ kv ∈ (unsubscribe reg cid uid).1, ∀ x ∈ kv.2, x.collection = kv.1 := by
  cases uid with
  | none => simpa only [unsubscribe] using bucketsMatch_removeAll h
  | some u =>
    rcases hg : getSubscription reg u with _ | s
    · simpa only [unsubscribe, hg] using h
    · by_cases hc : s.client = cid
      · simpa only [unsubscribe, hg, if_pos hc] using bucketsMatch_del h
      · simpa only [unsubscribe, hg, if_neg hc] using h

theorem WF_onSubscribe (env : Env) (st : HState) (c : Client)
    (m : SubscribeMessage) (hWF : WFState st) :
    WFState (onSubscribe env st c m).state := by
  obtain ⟨hnd, hcm, hsid⟩ := hWF
  rcases hcol : (!c.admin && !env.hasCollection m.collection) with _ | _
  · rcases hr : initRead env st c m with code | u
    · rw [onSubscribe_err_eq env st c m code hcol hr]
      refine ⟨?_, ?_, ?_⟩
      · rw [keys_unsubscribe]
        exact hnd
      · exact bucketsMatch_unsubscribe hcm
      · intro s hs
        exact hsid s (mem_unsubscribe hs)
    · rw [onSubscribe_ok_eq env st c m u hcol hr]
      refine ⟨?_, ?_, ?_⟩
      · exact nodup_keys_add _ _ (by rw [keys_unsubscribe]; exact hnd)
      · exact bucketsMatch_add (bucketsMatch_unsubscribe hcm)
      · intro s hs
        rcases mem_allSubs_add hs with hs | hs
        · exact Nat.lt_succ_of_lt (hsid s (mem_unsubscribe hs))
        · rw [hs]
          exact Nat.lt_succ_self _
  · rw [onSubscribe_invalid_eq env st c m hcol]
    exact ⟨hnd, hcm, hsid⟩

theorem onSubscribe_uid_step (env : Env) (st : HState) (c : Client)
    (m : SubscribeMessage) (u : String) (hWF : WFState st) (huid : m.uid = some u)
    (hcol : (!c.admin && !env.hasCollection m.collection) = false)
    (hown : ((allSubs st.registry).filter (fun s => s.uid == some u)) = []
        ∨ ∃ s₀, ((allSubs st.registry).filter (fun s => s.uid == some u)) = [s₀]
            ∧ s₀.client = c.id)
    (hok : readOk (initRead env st c m) = true) :
    ((allSubs (onSubscribe env st c m).state.registry).filter
        (fun s => s.uid == some u)) = [mkSub env st c m] := by
  rcases hr : initRead env st c m with code | uu
  · rw [hr] at hok
    simp [readOk] at hok
  · rw [onSubscribe_ok_eq env st c m uu hcol hr]
    have hq : (fun s : Subscription => s.uid == some u) (mkSub env st c m) = true := by
      simp [mkSub, huid]
    have hru : ((allSubs (unsubscribe st.registry c.id m.uid).1).filter
        (fun s => s.uid == some u)) = [] := by
      rw [huid]
      rcases hown with h0 | ⟨s₀, h1, h2⟩
      · rw [unsubscribe, getSubscription_eq, h0]
        exact h0
      · rw [unsubscribe, getSubscription_eq, h1]
        simp only [List.head?_cons, if_pos h2]
        exact filter_allSubs_del_single hWF.1 hWF.2.1 h1
    have hadd := filter_allSubs_add_of_empty
      (mkSub env st c m).collection (mkSub env st c m) hru
    rw [if_pos hq] at hadd
    exact hadd

/-- C2 (amended): when at most one subscription in the registry carries
uid `u` and it belongs to the subscribing client, two consecutive
SUBSCRIBEs with uid `u` leave exactly one subscription carrying that uid,
namely the second one.  (The counterexample shows the replace step fails
as soon as a different client registered the same uid first.) -/
theorem subscribe_same_uid_replaces (env : Env) (st : HState) (c : Client)
    (m : SubscribeMessage) (u : String) (hWF : WFState st) (huid : m.uid = some u)
    (hcol : (!c.admin && !env.hasCollection m.collection) = false)
    (hown : ((allSubs st.registry).filter (fun s => s.uid == some u)) = []
        ∨ ∃ s₀, ((allSubs st.registry).filter (fun s => s.uid == some u)) = [s₀]
            ∧ s₀.client = c.id)
    (hok1 : readOk (initRead env st c m) = true)
    (hok2 : readOk (initRead env (onSubscribe env st c m).state c m) = true) :
    ((allSubs (onSubscribe env (onSubscribe env st c m).state c m).state.registry).filter
        (fun s => s.uid == some u))
      = [mkSub env (onSubscribe env st c m).state c m] := by
  have h1 := onSubscribe_uid_step env st c m u hWF huid hcol hown hok1
  have hWF1 := WF_onSubscribe env st c m hWF
  exact onSubscribe_uid_step env _ c m u hWF1 huid hcol
    (Or.inr ⟨mkSub env st c m, h1, rfl⟩) hok2

/-- The handler state used as a fixture: two prior subscriptions of
client 1 on two collections, none carrying a uid match. -/
def stPre : HState :=
  ⟨[("articles", [⟨0, 1, "articles", none, none, false, some "x"⟩]),
    ("files", [⟨1, 1, "files", none, none, false, some "y"⟩])], [], [], 2⟩

/-- A SUBSCRIBE message without a uid. -/
def mNoUid : SubscribeMessage := ⟨"articles", none, none, false, none⟩

/-- The subscriptions of one client over the whole registry. -/
def clientSubs (reg : Registry) (cid : Nat) : List Subscription :=
  (allSubs reg).filter (fun s => s.client == cid)

theorem clientSubs_removeAll_self (reg : Registry) (cid : Nat) :
    clientSubs (removeAllOfClient reg cid) cid = [] := by
  unfold clientSubs
  rw [allSubs_removeAll, List.filter_filter]
  refine List.filter_eq_nil_iff.mpr ?_
  intro x _
  cases hx : x.client == cid <;> simp [hx]

theorem clientSubs_removeAll_other (reg : Registry) {cid d : Nat} (hne : d ≠ cid) :
    clientSubs (removeAllOfClient reg cid) d = clientSubs reg d := by
  unfold clientSubs
  rw [allSubs_removeAll, List.filter_filter]
  refine List.filter_congr ?_
  intro x _
  cases hx : x.client == d
  · simp
  · have hxd : x.client = d := by simpa using hx
    have : (x.client == cid) = false := by
      simp [hxd]
      exact hne
    simp [this]

/-- C8: a SUBSCRIBE carrying no uid first removes all of the client
subscriptions across every collection (the pre-registration replace step
calls unsubscribe with an undefined uid, which takes the remove-all
path) and then registers the new uid-less subscription, which is left as
the only subscription of the client; the subscriptions of every other
client are untouched. -/
theorem onSubscribe_no_uid_removes_all (env : Env) (st : HState) (c : Client)
    (m : SubscribeMessage) (huid : m.uid = none)
    (hcol : (!c.admin && !env.hasCollection m.collection) = false)
    (hok : readOk (initRead env st c m) = true) :
    clientSubs (onSubscribe env st c m).state.registry c.id = [mkSub env st c m] ∧
    (∀ d, d ≠ c.id → clientSubs (onSubscribe env st c m).state.registry d
        = clientSubs st.registry d) := by
  rcases hr : initRead env st c m with code | uu
  · rw [hr] at hok
    simp [readOk] at hok
  · rw [onSubscribe_ok_eq env st c m uu hcol hr, huid]
    constructor
    · have hru : (allSubs (unsubscribe st.registry c.id none).1).filter
          (fun s => s.client == c.id) = [] := by
        have h0 := clientSubs_removeAll_self st.registry c.id
        unfold clientSubs at h0
        exact h0
      have hadd := filter_allSubs_add_of_empty
        (mkSub env st c m).collection (mkSub env st c m) hru
      have hq : (fun s : Subscription => s.client == c.id) (mkSub env st c m) = true := by
        simp [mkSub]
      rw [if_pos hq] at hadd
      unfold clientSubs
      exact hadd
    · intro d hd
      have hfalse : (fun s : Subscription => s.client == d) (mkSub env st c m) = false := by
        simp [mkSub]
        exact fun h => hd h.symm
      have h1 : (allSubs (addToBucket (unsubscribe st.registry c.id none).1
          (mkSub env st c m).collection (mkSub env st c m))).filter
            (fun s => s.client == d)
          = (allSubs (unsubscribe st.registry c.id none).1).filter
            (fun s => s.client == d) :=
        filter_allSubs_add_of_false _ _ hfalse
      have h2 := clientSubs_removeAll_other st.registry hd
      unfold clientSubs at h2 ⊢
      exact h1.trans h2

/-- C8 witness: with two prior subscriptions of client 1 on different
collections, a uid-less SUBSCRIBE leaves the new subscription as the
only one of client 1. -/
theorem onSubscribe_no_uid_removes_all_witness :
    clientSubs (onSubscribe envOkAll stPre cA mNoUid).state.registry cA.id
      = [mkSub envOkAll stPre cA mNoUid] :=
  (onSubscribe_no_uid_removes_all envOkAll stPre cA mNoUid rfl (by decide) (by decide)).1

/-- C3 (amended): in a dispatch, a synthetic status event is skipped (no
read executed, no frame sent) precisely when the subscription carries an
item and is not a directus_users subscription with status set; item-less
subscriptions are dispatched status events whatever their collection. -/
theorem dispatch_status_skip_iff (env : Env) (s : Subscription) :
    dispatchSub env "status" s = DOutcome.skipped
      ↔ (s.item.isSome && !((s.collection == "directus_users") && s.status)) = true := by
  have h1 : (("status" : String) == "focus") = false := by decide
  have h2 : (("status" : String) == "status") = true := by decide
  have hfix : dispatchSkip "status" s
      = (s.item.isSome && !((s.collection == "directus_users") && s.status)) := by
    simp [dispatchSkip, h1, h2]
  unfold dispatchSub
  rw [hfix]
  rcases hb : (s.item.isSome && !((s.collection == "directus_users") && s.status)) with _ | _
  · rw [if_neg (by simp)]
    constructor
    · intro h
      cases hread : (if s.item.isSome then env.readSingle s "status"
          else env.readMulti s "status") with
      | error code =>
        rw [hread] at h
        simp at h
      | ok v =>
        rw [hread] at h
        simp at h
    · intro h
      simp at h
  · rw [if_pos rfl]
    simp

/-- C3 counterexample: a status event dispatched to an item-less
subscription on the collection articles is not skipped: the read runs
and a frame is sent, although the collection is not directus_users and
status is false. -/
theorem dispatch_status_cex :
    dispatchSub envOkAll "status" ⟨0, 1, "articles", none, none, false, none⟩
      = DOutcome.sent (subscriptionFrame 1 "status" none) ∧
    (("articles" : String) == "directus_users") = false := by decide

theorem lastOnline_concat (u : String) (es : List WsEvent) (e : WsEvent) :
    lastOnline u (es ++ [e])
      = if touches u e then isOnlineEvt e else lastOnline u es := by
  unfold lastOnline
  rw [List.filter_append]
  rcases ht : touches u e with _ | _
  · simp [List.filter_cons, ht]
  · simp [List.filter_cons, ht, List.getLast?_concat]

theorem mem_addUser {l : List String} {u v : String} :
    v ∈ addUser l u ↔ v = u ∨ v ∈ l := by
  unfold addUser
  by_cases h : u ∈ l
  · rw [if_pos h]
    constructor
    · exact Or.inr
    · rintro (rfl | hv)
      exacts [h, hv]
  · rw [if_neg h]
    simp [List.mem_append, or_comm]

theorem mem_delUser {l : List String} {u v : String} :
    v ∈ delUser l u ↔ v ∈ l ∧ v ≠ u := by
  unfold delUser
  simp [List.mem_filter]

theorem mem_stepOnline (l : List String) (e : WsEvent) (u : String) :
    u ∈ stepOnline l e
      ↔ (if touches u e = true then isOnlineEvt e = true else u ∈ l) := by
  unfold stepOnline touches
  rcases hu : userIdOf e.client with _ | v
  · simp
  · rcases hOn : isOnlineEvt e with _ | _
    · by_cases hvu : v = u
      · subst hvu
        simp [mem_delUser]
      · simp [mem_delUser, hvu, Ne.symm hvu]
    · by_cases hvu : v = u
      · subst hvu
        simp [mem_addUser]
      · simp [mem_addUser, hvu, Ne.symm hvu]

/-- C4 (amended): a user is in onlineStatus exactly when the last
lifecycle event touching that user in the trace is an online event
(connect or auth success): userOffline deletes the user from the set on
any close, error or auth failure of ONE connection, even while another
connection of the same user is still live. -/
theorem onlineStatus_last_event (u : String) (es : List WsEvent) :
    u ∈ runOnline es ↔ lastOnline u es = true := by
  induction es using List.reverseRecOn with
  | nil => simp [runOnline, lastOnline]
  | append_singleton es e ih =>
    have hstep : runOnline (es ++ [e]) = stepOnline (runOnline es) e := by
      unfold runOnline
      rw [List.foldl_append]
      rfl
    rw [hstep, lastOnline_concat, mem_stepOnline]
    by_cases ht : touches u e = true
    · simp [ht]
    · have ht2 : touches u e = false := by simpa using ht
      simp [ht2, ih]

/-- C4 counterexample: user u1 holds two live connections; closing the
first one already removes u1 from onlineStatus although the second
connection is still live, so membership does not match the set of live
users. -/
theorem presence_two_tabs_cex :
    ¬(("u1" ∈ runOnline [.connect ⟨1, some ⟨some "u1", false⟩⟩,
        .connect ⟨2, some ⟨some "u1", false⟩⟩, .close ⟨1, some ⟨some "u1", false⟩⟩])
      ↔ ∃ c ∈ runLive [.connect ⟨1, some ⟨some "u1", false⟩⟩,
        .connect ⟨2, some ⟨some "u1", false⟩⟩, .close ⟨1, some ⟨some "u1", false⟩⟩],
          userIdOf c = some "u1") := by decide

/-- C5 (amended): the controller keeps a single pending token-expiry
timer shared by all of its clients: installing a new epoch for any
client first clears the pending timer whichever client owns it, and any
timer pending afterwards belongs to the installing client. -/
theorem setTokenExpireTimer_single_slot (p : Option TimerRec) (cid : Nat)
    (e : Option Int) (r₀ : TimerRec) (_hp : p = some r₀) (hne : r₀.client ≠ cid) :
    (∀ r, setTokenExpireTimer p cid e = some r → r.client = cid) ∧
    setTokenExpireTimer p cid e ≠ some r₀ := by
  have hall : ∀ r, setTokenExpireTimer p cid e = some r → r.client = cid := by
    intro r hr
    cases e with
    | none => simp [setTokenExpireTimer] at hr
    | some t =>
      by_cases ht : t = 0
      · simp [setTokenExpireTimer, ht] at hr
      · simp [setTokenExpireTimer, ht] at hr
        rw [← hr]
  exact ⟨hall, fun hr => hne (hall r₀ hr)⟩

/-- C5 counterexample: with a pending timer for client 1, installing an
epoch for client 2 replaces it: the shared controller slot now holds a
timer for client 2 and the pending timer of client 1 is cancelled. -/
theorem authTimer_cross_client_cex :
    setTokenExpireTimer (some ⟨1, 100⟩) 2 (some 200) = some ⟨2, 200⟩ ∧
    setTokenExpireTimer (some ⟨1, 100⟩) 2 (some 200) ≠ some ⟨1, 100⟩ := by decide

/-- C5 witness at a concrete slot state. -/
theorem setTokenExpireTimer_single_slot_witness :
    setTokenExpireTimer (some ⟨1, 100⟩) 2 none ≠ some ⟨1, 100⟩ :=
  (setTokenExpireTimer_single_slot (some ⟨1, 100⟩) 2 none ⟨1, 100⟩ rfl (by decide)).2

/-- C6: in strict mode an upgrade whose token resolution fails or yields
a falsy user writes 401 and destroys the socket, emitting no connection
event and leaving onlineStatus unchanged; an upgrade whose token
resolves to a truthy user completes and emits a connection event
carrying that accountability and expiry. -/
theorem handleStrictUpgrade_auth (res : Option (Accountability × Option Int))
    (cid : Nat) (l : List String) :
    (handleStrictUpgrade res = UpgradeOutcome.rejected401
        ↔ ∀ a e, res = some (a, e) → strTruthy a.user = false) ∧
    (handleStrictUpgrade res = UpgradeOutcome.rejected401 →
        (upgradeEvents cid (handleStrictUpgrade res)).foldl stepOnline l = l) ∧
    (∀ a e, res = some (a, e) → strTruthy a.user = true →
        handleStrictUpgrade res = UpgradeOutcome.connected a e) := by
  refine ⟨?_, ?_, ?_⟩
  · cases res with
    | none => simp [handleStrictUpgrade]
    | some pr =>
      rcases pr with ⟨a, e⟩
      rcases hu : strTruthy a.user with _ | _
      · simp [handleStrictUpgrade, hu]
      · simp [handleStrictUpgrade, hu]
  · intro h
    rw [h]
    rfl
  · intro a e h hu
    rw [h]
    simp [handleStrictUpgrade, hu]

/-- C6 witness: a token resolving to user u1 completes the upgrade. -/
theorem handleStrictUpgrade_auth_witness :
    handleStrictUpgrade (some (⟨some "u1", false⟩, some 5))
      = UpgradeOutcome.connected ⟨some "u1", false⟩ (some 5) :=
  (handleStrictUpgrade_auth (some (⟨some "u1", false⟩, some 5)) 0 []).2.2
    ⟨some "u1", false⟩ (some 5) rfl (by decide)

/-- C7 (code bug): a send with no matching reply settles immediately as
fulfilled with the synthetic ok value, and the default 5 second timer
settles nothing, because the reject inside its callback is commented
out; the caller promise is never rejected. -/
theorem send_promise_never_rejected :
    promiseOutcome (sendSettleAttempts false sendDefaultTimeoutMs)
        = some Settle.resolveOk ∧
    Settle.rejected ∉ sendSettleAttempts false sendDefaultTimeoutMs ∧
    Settle.rejected ∉ sendSettleAttempts true sendDefaultTimeoutMs := by decide

/-- C9: the client uid counter starts at 0 and the inbound dispatcher
guards the callback lookup with a truthiness check on the numeric uid,
so the callback registered under the very first generated uid (0) is
never invoked by any inbound frame. -/
theorem first_uid_callback_never_invoked (uid : Option Nat) :
    (uidNext 0).1 = 0 ∧ invokedCallbackKey uid ≠ some (uidNext 0).1 := by
  refine ⟨rfl, ?_⟩
  cases uid with
  | none => simp [invokedCallbackKey, uidNext]
  | some u =>
    by_cases hu : u = 0
    · simp [invokedCallbackKey, hu, uidNext]
    · simp [invokedCallbackKey, hu, uidNext]

/-- C9 witness: even a frame carrying uid 0 does not invoke the callback
registered under uid 0. -/
theorem first_uid_callback_never_invoked_witness :
    (uidNext 0).1 = 0 ∧ invokedCallbackKey (some 0) ≠ some (uidNext 0).1 :=
  first_uid_callback_never_invoked (some 0)

/-- C10: an inline AUTH failure on a message carrying a uid builds the
error frame by passing the uid in the error-object parameter position of
authenticationError, so the resulting frame has no error code, no error
message and no uid field, instead of the AUTHENTICATION_FAILED envelope
correlated by uid. -/
theorem inline_auth_error_misplaced_uid (u : String) :
    (inlineAuthFailureFrame (some u)).errCode = none ∧
    (inlineAuthFailureFrame (some u)).errMessage = none ∧
    (inlineAuthFailureFrame (some u)).uid = none ∧
    authenticationError none (some u)
      = ⟨"auth", "error", some "AUTHENTICATION_FAILED", some "Authentication failed.",
          if u ≠ "" then some u else none⟩ := by
  simp [inlineAuthFailureFrame, authenticationError, ErrArg.codeOf, ErrArg.msgOf]

/-- A single-item status SUBSCRIBE on directus_users. -/
def mDU : SubscribeMessage := ⟨"directus_users", some "5", none, true, some "a1"⟩

/-- C1 counterexample: a directus_users SUBSCRIBE with an item and
status set has a successful read and is registered, yet receives no
init frame, refuting the if-and-only-if between read success and the
init frame. -/
theorem onSubscribe_missing_init_cex :
    readOk (initRead envOkAll st0 cA mDU) = true ∧
    (onSubscribe envOkAll st0 cA mDU).registered = some (mkSub envOkAll st0 cA mDU) ∧
    initFrameCount (onSubscribe envOkAll st0 cA mDU).frames cA.id = 0 := by decide

/-- C1 witness: a plain SUBSCRIBE with a successful read yields exactly
one init frame. -/
theorem onSubscribe_init_frame_witness :
    initFrameCount (onSubscribe envOkAll st0 cA mU).frames cA.id
      = if readOk (initRead envOkAll st0 cA mU)
            && !(mU.status && mU.item.isSome && (mU.collection == "directus_users"))
        then 1 else 0 :=
  (onSubscribe_init_frame envOkAll st0 cA mU (by decide) (by decide)).2.2.1

/-- C2 counterexample: after client B registers uid u, two consecutive
SUBSCRIBEs with uid u by client A leave TWO subscriptions of client A
carrying uid u: getSubscription finds the subscription of B first, so
the replace step removes nothing for A. -/
theorem subscribe_same_uid_cex :
    ((allSubs stBAA.registry).filter
      (fun s => s.client == cA.id && s.uid == some "u")).length = 2 := by decide

/-- C2 witness: starting from an empty registry, two consecutive
SUBSCRIBEs of client A with uid u leave exactly the second
subscription. -/
theorem subscribe_same_uid_replaces_witness :
    ((allSubs (onSubscribe envOkAll
        (onSubscribe envOkAll st0 cA mU).state cA mU).state.registry).filter
      (fun s => s.uid == some "u"))
      = [mkSub envOkAll (onSubscribe envOkAll st0 cA mU).state cA mU] :=
  subscribe_same_uid_replaces envOkAll st0 cA mU "u" (by decide) rfl (by decide)
    (Or.inl (by decide)) (by decide) (by decide)

end DirectusWS
